import Mathlib

/-!
Verification development for the polkadot-launch network launcher.

The repository launches a relay-chain/parachain test network from a declarative
plan (`run`), and optionally drives a scripted runtime-upgrade test
(`runThenTryUpgrade` and variants).  The statements below shallowly embed the
relevant TypeScript from `src/src/runner.ts`, `src/src/spawn.ts`,
`src/src/rpc.ts`, the `checkConfig` module (third chunk of
`src/src/types.d.ts`), and the variant runners in `src/unnamed/part_002` and
`src/unnamed/part_003`.  Stateful code becomes explicit state passing; external
effects (file existence, spawned binaries, chain RPC reads) become oracle
parameters in an environment record; sequences of awaited effects become event
traces.
-/

/-! ## JavaScript value helpers

JS truthiness on optional strings: `undefined` and the empty string are falsy.
-/

def jsTruthy : Option String → Bool
  | none => false
  | some s => !(s == "")

/-- JS `a || b` on optional numbers (`undefined` and `0` are falsy; the
expression evaluates to `b`'s value whenever `a` is falsy). -/
def jsNumOr : Option Nat → Option Nat → Option Nat
  | some n, b => if n = 0 then b else some n
  | none, b => b

/-! ## Configuration data model

Mirrors `LaunchConfig` and friends from `src/src/types.d.ts`.  Fields that the
modeled code never reads are omitted.  Fields that may be absent in the raw
JSON the program actually receives are `Option`s.  A `flags` field may hold a
JS array or some other (truthy) value, which `checkConfig` rejects.
-/

inductive FlagsVal
  | array (xs : List String)
  | nonArray
deriving DecidableEq

structure RelayNodeCfg where
  name : String
  wsPort : Nat
  rpcPort : Option Nat
  port : Nat
  basePath : Option String
  nodeKey : Option String
  flags : Option FlagsVal
deriving DecidableEq

structure ParaNodeCfg where
  wsPort : Nat
  port : Nat
  rpcPort : Option Nat
  name : Option String
  basePath : Option String
  flags : Option FlagsVal
deriving DecidableEq

structure ParachainCfg where
  bin : String
  id : Option String
  balance : String
  chain : Option String
  nodes : Option (List ParaNodeCfg)
  resolvedId : Option String
deriving DecidableEq

structure SimpleParachainCfg where
  bin : String
  id : String
  port : String
  balance : String
  resolvedId : Option String
deriving DecidableEq

structure HrmpChannelCfg where
  sender : Nat
  recipient : Nat
  maxCapacity : Nat
  maxMessageSize : Nat
deriving DecidableEq

structure RelaychainCfg where
  bin : String
  chain : String
  nodes : List RelayNodeCfg
  genesis : Bool
deriving DecidableEq

structure LaunchConfig where
  relaychain : Option RelaychainCfg
  parachains : Option (List ParachainCfg)
  simpleParachains : Option (List SimpleParachainCfg)
  hrmpChannels : Option (List HrmpChannelCfg)
  finalization : Bool
deriving DecidableEq

/-! ## checkConfig

Embeds `checkConfig` (the check module bundled with `src/src/types.d.ts`,
lines 296-424) on the base path used by `run` (the `isTestingUpgrade` branch is
skipped there because `run` calls `checkConfig(rawConfig)` with no further
arguments).  Each early `return false` of the source becomes a nested
conditional. -/

def nodeFlagsOk : Option FlagsVal → Bool
  | some FlagsVal.nonArray => false
  | _ => true

def checkConfigSome (c : LaunchConfig) : Bool :=
  match c.relaychain with
  | none => false
  | some relay =>
    if relay.bin == "" then false
    else if relay.chain == "" then false
    else if relay.nodes.length == 0 then false
    else if !(relay.nodes.all fun n => nodeFlagsOk n.flags) then false
    else
      match c.parachains with
      | none => false
      | some parachains =>
        if relay.nodes.length ≤ parachains.length then false
        else if !(parachains.all fun p => p.nodes.isSome) then false
        else if !(parachains.all fun p => (p.nodes.getD []).all fun n => nodeFlagsOk n.flags) then false
        else true

def checkConfig : Option LaunchConfig → Bool
  | none => false
  | some c => checkConfigSome c

/-! ## Environment of external effects

`binExists` models `fs.existsSync` on a (resolved) binary path, `exportOk`
models success of `export-genesis-state` / `export-genesis-wasm`,
`paraIdFromSpec` models the number produced by spawning the collator binary in
`getParachainIdFromSpec` (`src/src/spawn.ts`), `keyGen` models
`hexStripPrefix(randomAsHex(32))` for the n-th relay node, and `peerIdOf`
models the libp2p peer id derived from a node key. -/

structure RunEnv where
  binExists : String → Bool
  exportOk : String → Bool
  paraIdFromSpec : String → Option String → Nat
  keyGen : Nat → String
  peerIdOf : String → String

/-- Events of the launch pipeline, in the order the awaited calls happen in
`run` (`src/src/runner.ts`). -/
inductive RunEvent
  | getParachainIdFromSpec (bin : String)
  | generateChainSpec (bin chain : String)
  | clearAuthorities
  | addAuthority (name : String)
  | changeGenesisConfig
  | addGenesisParachain (id : String)
  | addGenesisHrmpChannel
  | addBootNodes
  | generateChainSpecRaw (bin chain : String)
  | startNode (name : String)
  | connect (wsPort : Nat)
  | startCollator (wsPort : Nat)
  | setBalance (id : String)
  | startSimpleCollator (port : String)
  | disconnect
deriving DecidableEq

/-! ## Parachain id resolution

`resolveParachainId` of `src/src/runner.ts` (lines 558-578): an explicit
(truthy) `id` is copied to `resolvedId`, otherwise the id is read by invoking
the collator binary (`getParachainIdFromSpec`); the `resolvedId` field is never
consulted.  `resolveParaChecked` embeds the `src/unnamed/part_003` variant
(lines 560-582) which first skips entries already carrying a truthy
`resolvedId`. -/

def resolvePara (env : RunEnv) (p : ParachainCfg) : ParachainCfg × List RunEvent :=
  if jsTruthy p.id then ({ p with resolvedId := p.id }, [])
  else
    ({ p with resolvedId := some (toString (env.paraIdFromSpec p.bin p.chain)) },
     [RunEvent.getParachainIdFromSpec p.bin])

def resolveParachainId (env : RunEnv) : List ParachainCfg → List ParachainCfg × List RunEvent
  | [] => ([], [])
  | p :: rest =>
    let head := resolvePara env p
    let out := resolveParachainId env rest
    (head.1 :: out.1, head.2 ++ out.2)

def resolveParaChecked (env : RunEnv) (p : ParachainCfg) : ParachainCfg × List RunEvent :=
  if jsTruthy p.resolvedId then (p, [])
  else if jsTruthy p.id then ({ p with resolvedId := p.id }, [])
  else
    ({ p with resolvedId := some (toString (env.paraIdFromSpec p.bin p.chain)) },
     [RunEvent.getParachainIdFromSpec p.bin])

def resolveParachainIdChecked (env : RunEnv) : List ParachainCfg → List ParachainCfg × List RunEvent
  | [] => ([], [])
  | p :: rest =>
    let head := resolveParaChecked env p
    let out := resolveParachainIdChecked env rest
    (head.1 :: out.1, head.2 ++ out.2)

/-- Both variants resolve every simple parachain by copying its mandatory `id`. -/
def resolveSimpleParachainIds (simple : List SimpleParachainCfg) : List SimpleParachainCfg :=
  simple.map fun sp => { sp with resolvedId := some sp.id }

/-! ## Genesis parachain registration

`addParachainsToGenesis` (`src/src/runner.ts` lines 498-545, and the
`src/unnamed/part_002` copy at lines 789-843): full parachains and simple
parachains are concatenated (full first, each group in declaration order); a
parachain whose binary is missing terminates the process; an id not yet in the
`registeredParachains` map gets its genesis state/wasm exported (failure exits
with code 1) and exactly one `addGenesisParachain` entry, after which the id is
marked registered. -/

structure GenesisPara where
  isSimple : Bool
  resolvedId : String
  chain : Option String
  bin : String
deriving DecidableEq

def genesisParas (parachains : List ParachainCfg) (simple : List SimpleParachainCfg) :
    List GenesisPara :=
  parachains.map (fun p =>
      { isSimple := false, resolvedId := p.resolvedId.getD "", chain := p.chain, bin := p.bin })
    ++ simple.map (fun p =>
      { isSimple := true, resolvedId := p.resolvedId.getD "", chain := none, bin := p.bin })

structure GenesisBuildState where
  registeredParachains : List String
  entries : List String
  exitCode : Option Nat
deriving DecidableEq

def addParachainsToGenesis (env : RunEnv) (st : GenesisBuildState) :
    List GenesisPara → GenesisBuildState
  | [] => st
  | p :: rest =>
    if env.binExists p.bin = false then { st with exitCode := some 0 }
    else if st.registeredParachains.contains p.resolvedId then
      addParachainsToGenesis env st rest
    else if env.exportOk p.bin = false then { st with exitCode := some 1 }
    else
      addParachainsToGenesis env
        { st with
          registeredParachains := st.registeredParachains ++ [p.resolvedId],
          entries := st.entries ++ [p.resolvedId] } rest

/-! ## Node key generation

`generateNodeKeys` (`src/src/runner.ts` lines 580-601): a relay node without a
(truthy) key receives a fresh random one; a boot-node multiaddress is derived
from the node's port and the peer id of its key. -/

def generateNodeKeysGo (env : RunEnv) : Nat → List RelayNodeCfg → List RelayNodeCfg × List String
  | _, [] => ([], [])
  | idx, node :: rest =>
    let key := if jsTruthy node.nodeKey then node.nodeKey.getD "" else env.keyGen idx
    let node' := { node with nodeKey := some key }
    let boot := "/ip4/127.0.0.1/tcp/" ++ toString node.port ++ "/p2p/" ++ env.peerIdOf key
    let out := generateNodeKeysGo env (idx + 1) rest
    (node' :: out.1, boot :: out.2)

def generateNodeKeys (env : RunEnv) (nodes : List RelayNodeCfg) :
    List RelayNodeCfg × List String :=
  generateNodeKeysGo env 0 nodes

/-! ## Launching parachains

The per-parachain block of `run` (`src/src/runner.ts` lines 137-167): the
binary is checked (missing terminates the process), every collator node is
started and awaited in order, and only then, if the parachain's `balance` is
truthy, a `setBalance` extrinsic is submitted.  The account string is derived
from `resolvedId` by `parachainAccount` (`src/parachain.ts`, not part of the
modeled surface); the event carries the id it derives from. -/

def launchParachainEvents (p : ParachainCfg) : List RunEvent :=
  (p.nodes.getD []).map (fun n => RunEvent.startCollator n.wsPort)
    ++ (if p.balance == "" then [] else [RunEvent.setBalance (p.resolvedId.getD "")])

def launchParachains (env : RunEnv) : List ParachainCfg → List RunEvent × Bool
  | [] => ([], false)
  | p :: rest =>
    if env.binExists p.bin = false then ([], true)
    else
      let out := launchParachains env rest
      (launchParachainEvents p ++ out.1, out.2)

def launchSimpleParachains (env : RunEnv) : List SimpleParachainCfg → List RunEvent × Bool
  | [] => ([], false)
  | sp :: rest =>
    if env.binExists sp.bin = false then ([], true)
    else
      let out := launchSimpleParachains env rest
      (RunEvent.startSimpleCollator sp.port
          :: (if sp.balance == "" then [] else [RunEvent.setBalance (sp.resolvedId.getD "")])
        ++ out.1, out.2)

/-! ## The launcher

`run` (`src/src/runner.ts` lines 70-198).  The outcome distinguishes the
`return null` of a failed `checkConfig`, a `process.exit` (missing binary or
failed genesis export), and the normal return of the resolved config. -/

inductive RunOutcome
  | nullConfig
  | exited (code : Nat)
  | ok (config : LaunchConfig)
deriving DecidableEq

def defaultRelayNode : RelayNodeCfg :=
  { name := "", wsPort := 0, rpcPort := none, port := 0, basePath := none,
    nodeKey := none, flags := none }

def run (env : RunEnv) (rawConfig : LaunchConfig) : RunOutcome × List RunEvent :=
  if checkConfig (some rawConfig) = false then (RunOutcome.nullConfig, [])
  else
    match rawConfig.relaychain, rawConfig.parachains with
    | some relay, some parachains0 =>
      let simple0 := rawConfig.simpleParachains.getD []
      let resolved := resolveParachainId env parachains0
      let parachains1 := resolved.1
      let simple1 := resolveSimpleParachainIds simple0
      let keyed := generateNodeKeys env relay.nodes
      let nodes1 := keyed.1
      let preEvents := resolved.2
      if env.binExists relay.bin = false then (RunOutcome.exited 0, preEvents)
      else
        let specEvents :=
          RunEvent.generateChainSpec relay.bin relay.chain :: RunEvent.clearAuthorities
            :: nodes1.map (fun n => RunEvent.addAuthority n.name)
            ++ (if relay.genesis then [RunEvent.changeGenesisConfig] else [])
        let gst := addParachainsToGenesis env
          { registeredParachains := [], entries := [], exitCode := none }
          (genesisParas parachains1 simple1)
        let genesisEvents := gst.entries.map RunEvent.addGenesisParachain
        match gst.exitCode with
        | some code => (RunOutcome.exited code, preEvents ++ specEvents ++ genesisEvents)
        | none =>
          let hrmpEvents :=
            (rawConfig.hrmpChannels.getD []).map fun _ => RunEvent.addGenesisHrmpChannel
          let rawEvents :=
            [RunEvent.addBootNodes, RunEvent.generateChainSpecRaw relay.bin relay.chain]
          let startEvents := nodes1.map fun n => RunEvent.startNode n.name
          let connectEvents := [RunEvent.connect (nodes1.headD defaultRelayNode).wsPort]
          let paraOut := launchParachains env parachains1
          if paraOut.2 then
            (RunOutcome.exited 0,
             preEvents ++ specEvents ++ genesisEvents ++ hrmpEvents ++ rawEvents
               ++ startEvents ++ connectEvents ++ paraOut.1)
          else
            let simpleOut := launchSimpleParachains env simple1
            if simpleOut.2 then
              (RunOutcome.exited 0,
               preEvents ++ specEvents ++ genesisEvents ++ hrmpEvents ++ rawEvents
                 ++ startEvents ++ connectEvents ++ paraOut.1 ++ simpleOut.1)
            else
              (RunOutcome.ok
                { rawConfig with
                  relaychain := some { relay with nodes := nodes1 },
                  parachains := some parachains1,
                  simpleParachains := some simple1 },
               preEvents ++ specEvents ++ genesisEvents ++ hrmpEvents ++ rawEvents
                 ++ startEvents ++ connectEvents ++ paraOut.1 ++ simpleOut.1
                 ++ [RunEvent.disconnect])
    | _, _ => (RunOutcome.nullConfig, [])

/-! ## Parachain id extraction from a generated chain spec

`getParachainIdFromSpec` (`src/src/spawn.ts` lines 74-106) parses the spec the
binary printed and evaluates `spec.paraId || spec.para_id` — JS `||`, so a `0`
or absent `paraId` falls through to `para_id`.  The caller
(`resolveParachainId`, `src/src/runner.ts` line 571) renders the number with
`toString()`. -/

structure ParaSpecJson where
  paraId : Option Nat
  para_id : Option Nat
deriving DecidableEq

def getParachainIdFromSpec (spec : ParaSpecJson) : Option Nat :=
  jsNumOr spec.paraId spec.para_id

def resolvedIdOfSpec (spec : ParaSpecJson) : Option String :=
  (getParachainIdFromSpec spec).map fun n => toString n

/-! ## Timed waits and the relay rolling restart

`waitWithTimer` (`src/unnamed/part_002` lines 747-763) sleeps
`Math.ceil(time / 1000)` whole seconds while rendering a countdown; the model
returns the elapsed milliseconds.  `rollingRestart` embeds the relay loop of
`runThenTryUpgrade` (`src/unnamed/part_002` lines 331-360): per node, wait one
`epoch_time = epochLength * blockTime` (`getRelayInfo` at line 325), then
synchronously kill and restart that node under its old identity. -/

def waitWithTimerSeconds (time : Nat) : Nat := (time + 999) / 1000

def waitWithTimer (time : Nat) : Nat := 1000 * waitWithTimerSeconds time

def relayEpochTime (epochLength blockTime : Nat) : Nat := epochLength * blockTime

inductive RelayRestartEvent
  | waitTimer (requested : Nat)
  | killNode (name : String)
  | startNode (name : String)
deriving DecidableEq

def rollingRestart (epoch_time : Nat) : List String → List RelayRestartEvent
  | [] => []
  | name :: rest =>
    RelayRestartEvent.waitTimer epoch_time
      :: RelayRestartEvent.killNode name
      :: RelayRestartEvent.startNode name
      :: rollingRestart epoch_time rest

def restartEventDuration : RelayRestartEvent → Nat
  | RelayRestartEvent.waitTimer t => waitWithTimer t
  | RelayRestartEvent.killNode _ => 0
  | RelayRestartEvent.startNode _ => 0

/-- Wall-clock time elapsed before the k-th event of a restart trace. -/
def elapsedBefore (evs : List RelayRestartEvent) (k : Nat) : Nat :=
  ((evs.take k).map restartEventDuration).sum

/-- Nodes killed but not yet restarted after a prefix of the trace. -/
def downedNodes (evs : List RelayRestartEvent) : List String :=
  evs.foldl
    (fun acc ev =>
      match ev with
      | RelayRestartEvent.waitTimer _ => acc
      | RelayRestartEvent.killNode n => acc ++ [n]
      | RelayRestartEvent.startNode n => acc.erase n)
    []

/-! ## The parachain upgrade-verification loop

Embeds the session bookkeeping of `runThenTryUpgrade` in
`src/unnamed/part_002` (sessions created at lines 385-391, verification loop at
lines 497-536).  `oracle pass id` is the spec version `getSpecVersion` returns
when parachain `id` is polled during the given pass.  `reads` records every
such poll. -/

structure UpgradeSession where
  first_node : Nat
  old_version : Nat
  has_updated : Bool
deriving DecidableEq

/-- Session creation (`src/unnamed/part_002` lines 385-391): `has_updated`
starts `false` and `old_version` stores the pre-upgrade spec version. -/
def mkUpgradeSession (wsPort oldVersion : Nat) : UpgradeSession :=
  { first_node := wsPort, old_version := oldVersion, has_updated := false }

abbrev SessionInfo := List (String × UpgradeSession)

def lookupInfo : SessionInfo → String → Option UpgradeSession
  | [], _ => none
  | (j, s) :: rest, i => if j = i then some s else lookupInfo rest i

def markUpdated : SessionInfo → String → SessionInfo
  | [], _ => []
  | (j, s) :: rest, i =>
    if j = i then (j, { s with has_updated := true }) :: rest
    else (j, s) :: markUpdated rest i

structure VerifyState where
  info : SessionInfo
  failed : Bool
  reads : List (Nat × String)
deriving DecidableEq

/-- One iteration of the inner `for (const parachain of config.parachains)`
loop (`src/unnamed/part_002` lines 510-535): an already-updated session is
skipped without polling; otherwise the version is read and compared against the
baseline. -/
def checkParaUpgrade (oracle : Nat → String → Nat) (pass : Nat)
    (st : VerifyState) (i : String) : VerifyState :=
  match lookupInfo st.info i with
  | none => st
  | some s =>
    if s.has_updated then st
    else if oracle pass i ≠ s.old_version then
      { st with info := markUpdated st.info i, reads := st.reads ++ [(pass, i)] }
    else
      { st with failed := true, reads := st.reads ++ [(pass, i)] }

/-- One polling pass: `parachains_upgrade_failed` is reset, then every
parachain id is visited in declaration order. -/
def verifyPass (oracle : Nat → String → Nat) (pass : Nat) (ids : List String)
    (st : VerifyState) : VerifyState :=
  ids.foldl (checkParaUpgrade oracle pass) { st with failed := false }

/-- The bounded retry loop `for (let try_n = 0; try_n < 3 &&
parachains_upgrade_failed; try_n++)`; returns the final state and the number of
passes performed. -/
def verifyLoop (oracle : Nat → String → Nat) (ids : List String) :
    Nat → Nat → VerifyState → VerifyState × Nat
  | 0, _, st => (st, 0)
  | fuel + 1, pass, st =>
    if st.failed then
      let out := verifyLoop oracle ids fuel (pass + 1) (verifyPass oracle pass ids st)
      (out.1, out.2 + 1)
    else (st, 0)

def verifyParachainUpgrades (oracle : Nat → String → Nat) (ids : List String)
    (info0 : SessionInfo) : VerifyState × Nat :=
  verifyLoop oracle ids 3 0 { info := info0, failed := true, reads := [] }

/-! The `src/src/runner.ts` variant of the same loop (lines 435-464): its
`parachains_info` entries have no `has_updated` flag, every session is polled
on every pass, and the retry bound is `try_n < 10`. -/

structure RunnerSession where
  first_node : Nat
  old_version : Nat
deriving DecidableEq

def lookupInfoR : List (String × RunnerSession) → String → Option RunnerSession
  | [], _ => none
  | (j, s) :: rest, i => if j = i then some s else lookupInfoR rest i

structure VerifyStateR where
  info : List (String × RunnerSession)
  failed : Bool
  reads : List (Nat × String)
deriving DecidableEq

def checkParaUpgradeR (oracle : Nat → String → Nat) (pass : Nat)
    (st : VerifyStateR) (i : String) : VerifyStateR :=
  match lookupInfoR st.info i with
  | none => st
  | some s =>
    if oracle pass i ≠ s.old_version then
      { st with reads := st.reads ++ [(pass, i)] }
    else
      { st with failed := true, reads := st.reads ++ [(pass, i)] }

def verifyPassR (oracle : Nat → String → Nat) (pass : Nat) (ids : List String)
    (st : VerifyStateR) : VerifyStateR :=
  ids.foldl (checkParaUpgradeR oracle pass) { st with failed := false }

def verifyLoopR (oracle : Nat → String → Nat) (ids : List String) :
    Nat → Nat → VerifyStateR → VerifyStateR × Nat
  | 0, _, st => (st, 0)
  | fuel + 1, pass, st =>
    if st.failed then
      let out := verifyLoopR oracle ids fuel (pass + 1) (verifyPassR oracle pass ids st)
      (out.1, out.2 + 1)
    else (st, 0)

def verifyParachainUpgradesR (oracle : Nat → String → Nat) (ids : List String)
    (info0 : List (String × RunnerSession)) : VerifyStateR × Nat :=
  verifyLoopR oracle ids 10 0 { info := info0, failed := true, reads := [] }

/-! ## Tail of the upgrade test

The straight-line remainder of `runThenTryUpgrade` (`src/unnamed/part_002`
lines 430-543): submit the relay upgrade, re-read the relay version, record —
not throw — a failure when the version is unchanged (the `process.exit()` in
that branch is commented out in the source), then still submit every live
parachain's authorize+enact pair, run the bounded verification loop, and print
a single summary combining both independent failure flags. -/

inductive UpgradePhase
  | submitRelayUpgrade
  | readRelayVersion
  | authorizeAndEnact (id : String)
  | verifyParachains
  | printSummary (ok : Bool)
deriving DecidableEq

structure UpgradeTestResult where
  relay_upgrade_failed : Bool
  parachains_upgrade_failed : Bool
  phases : List UpgradePhase
deriving DecidableEq

def upgradeTestTail (relay_old_version relay_new_version : Nat)
    (oracle : Nat → String → Nat) (paraIds : List String) (info0 : SessionInfo) :
    UpgradeTestResult :=
  let relay_failed := relay_old_version == relay_new_version
  let stf := (verifyParachainUpgrades oracle paraIds info0).1
  { relay_upgrade_failed := relay_failed
    parachains_upgrade_failed := stf.failed
    phases :=
      UpgradePhase.submitRelayUpgrade :: UpgradePhase.readRelayVersion
        :: (paraIds.filter fun i => (lookupInfo info0 i).isSome).map UpgradePhase.authorizeAndEnact
        ++ [UpgradePhase.verifyParachains,
            UpgradePhase.printSummary (!(stf.failed || relay_failed))] }

/-! ## Extrinsic submission ordering

`upgradeParachainRuntime` (`src/src/rpc.ts` lines 139-160): each
`executeTransaction` call is awaited until inclusion before the next statement
runs, and the `authorizeUpgrade` extrinsic is submitted and awaited strictly
before `enactAuthorizedUpgrade` is submitted. -/

inductive Extrinsic
  | authorizeUpgrade (codeHash : String)
  | enactAuthorizedUpgrade (code : String)
deriving DecidableEq

inductive TxEvent
  | submitted (e : Extrinsic)
  | included (e : Extrinsic)
deriving DecidableEq

def executeTransactionTrace (e : Extrinsic) : List TxEvent :=
  [TxEvent.submitted e, TxEvent.included e]

def upgradeParachainRuntime (codeHash code : String) : List TxEvent :=
  executeTransactionTrace (Extrinsic.authorizeUpgrade codeHash)
    ++ executeTransactionTrace (Extrinsic.enactAuthorizedUpgrade code)

/-! Decision helpers for stating pass-level properties of the verification
loop: `failNowB` says a visit of id `i` would record a failure (session
present, not yet updated, version unchanged), `readNowB` says a visit of `i`
would poll its version (session present and not yet updated). -/

def failNowB (oracle : Nat → String → Nat) (pass : Nat) (info : SessionInfo)
    (i : String) : Bool :=
  match lookupInfo info i with
  | none => false
  | some s => !s.has_updated && decide (oracle pass i = s.old_version)

def readNowB (info : SessionInfo) (i : String) : Bool :=
  match lookupInfo info i with
  | none => false
  | some s => !s.has_updated

/-! ## Concrete inputs used by witnesses and counterexamples -/

def envW : RunEnv :=
  { binExists := fun _ => true, exportOk := fun _ => true,
    paraIdFromSpec := fun _ _ => 2000, keyGen := fun _ => "aa", peerIdOf := fun _ => "peer" }

def paraNodeW : ParaNodeCfg :=
  { wsPort := 9944, port := 31000, rpcPort := none, name := none, basePath := none, flags := none }

def paraW1 : ParachainCfg :=
  { bin := "collator-a", id := some "2000", balance := "100", chain := none,
    nodes := some [paraNodeW], resolvedId := some "2000" }

def paraW2 : ParachainCfg :=
  { bin := "collator-b", id := some "2000", balance := "", chain := none,
    nodes := some [], resolvedId := some "2000" }

def paraCexCfg : ParachainCfg :=
  { bin := "collator", id := none, balance := "", chain := none,
    nodes := some [], resolvedId := some "2000" }

def relayNodeW : RelayNodeCfg :=
  { name := "alice", wsPort := 9944, rpcPort := none, port := 30444,
    basePath := none, nodeKey := none, flags := none }

def cfgBadW : LaunchConfig :=
  { relaychain := none, parachains := none, simpleParachains := none,
    hrmpChannels := none, finalization := false }

def relaychainW : RelaychainCfg :=
  { bin := "polkadot", chain := "rococo-local", nodes := [relayNodeW], genesis := false }

def cfgTooManyParasW : LaunchConfig :=
  { relaychain := some relaychainW,
    parachains := some [paraW1],
    simpleParachains := none, hrmpChannels := none, finalization := false }

def oracleW : Nat → String → Nat := fun _ i => if i = "A" then 43 else 42

def infoW : SessionInfo := [("A", mkUpgradeSession 1 42), ("B", mkUpgradeSession 2 42)]

def idsW : List String := ["A", "B"]

def runnerSessW : RunnerSession := { first_node := 9988, old_version := 5 }

/-! ## Supporting lemmas -/

theorem le_waitWithTimer (time : Nat) : time ≤ waitWithTimer time := by
  have h := Nat.div_add_mod (time + 999) 1000
  have h2 : (time + 999) % 1000 < 1000 := Nat.mod_lt _ (by omega)
  unfold waitWithTimer waitWithTimerSeconds
  omega

theorem elapsedBefore_kill (epoch_time : Nat) :
    ∀ (names : List String) (k : Nat), k < names.length →
      elapsedBefore (rollingRestart epoch_time names) (3 * k + 1)
        = (k + 1) * waitWithTimer epoch_time := by
  intro names
  induction names with
  | nil => intro k hk; simp at hk
  | cons name rest ih =>
    intro k hk
    cases k with
    | zero =>
      simp [rollingRestart, elapsedBefore, restartEventDuration]
    | succ m =>
      have hm : m < rest.length := by simpa using Nat.lt_of_succ_lt_succ hk
      have ihm := ih m hm
      have h3 : 3 * (m + 1) + 1 = (3 * m + 1) + 1 + 1 + 1 := by ring
      rw [h3]
      unfold elapsedBefore at ihm ⊢
      simp only [rollingRestart, List.take_succ_cons, List.map_cons, List.sum_cons,
        restartEventDuration] at ihm ⊢
      rw [ihm]
      ring

theorem downedNodes_take (epoch_time : Nat) :
    ∀ (names : List String) (k : Nat),
      downedNodes ((rollingRestart epoch_time names).take k) = []
        ∨ ∃ n, downedNodes ((rollingRestart epoch_time names).take k) = [n] := by
  intro names
  induction names with
  | nil => intro k; left; simp [rollingRestart, downedNodes]
  | cons name rest ih =>
    intro k
    match k with
    | 0 => left; simp [downedNodes]
    | 1 => left; simp [rollingRestart, downedNodes]
    | 2 => right; exact ⟨name, by simp [rollingRestart, downedNodes]⟩
    | (m + 3) =>
      have htake : (rollingRestart epoch_time (name :: rest)).take (m + 3)
          = RelayRestartEvent.waitTimer epoch_time :: RelayRestartEvent.killNode name
            :: RelayRestartEvent.startNode name :: (rollingRestart epoch_time rest).take m := by
        simp [rollingRestart, List.take_succ_cons]
      rw [htake]
      have hfold : downedNodes (RelayRestartEvent.waitTimer epoch_time
            :: RelayRestartEvent.killNode name :: RelayRestartEvent.startNode name
            :: (rollingRestart epoch_time rest).take m)
          = downedNodes ((rollingRestart epoch_time rest).take m) := by
        simp [downedNodes]
      rw [hfold]
      exact ih m

theorem addParas_entries_count (env : RunEnv) (i : String) :
    ∀ (l : List GenesisPara) (st : GenesisBuildState),
      (∀ p ∈ l, env.binExists p.bin = true) →
      (∀ p ∈ l, env.exportOk p.bin = true) →
      (addParachainsToGenesis env st l).entries.count i
        = st.entries.count i
          + (if i ∈ l.map GenesisPara.resolvedId ∧ i ∉ st.registeredParachains then 1 else 0) := by
  intro l
  induction l with
  | nil => intro st _ _; simp [addParachainsToGenesis]
  | cons p rest ih =>
    intro st hb he
    have hbp : env.binExists p.bin = true := hb p (List.mem_cons_self _ _)
    have hep : env.exportOk p.bin = true := he p (List.mem_cons_self _ _)
    have hbr : ∀ q ∈ rest, env.binExists q.bin = true := fun q hq => hb q (List.mem_cons_of_mem _ hq)
    have her : ∀ q ∈ rest, env.exportOk q.bin = true := fun q hq => he q (List.mem_cons_of_mem _ hq)
    unfold addParachainsToGenesis
    rw [hbp, hep]
    simp only [Bool.true_eq_false, if_false]
    by_cases hreg : st.registeredParachains.contains p.resolvedId
    · rw [if_pos hreg]
      have hregm : p.resolvedId ∈ st.registeredParachains := by
        simpa [List.elem_iff] using hreg
      rw [ih st hbr her]
      congr 1
      by_cases hi : i = p.resolvedId
      · subst hi
        simp [hregm]
      · simp [List.mem_cons, Ne.symm hi, hi]
    · rw [if_neg hreg]
      have hregm : p.resolvedId ∉ st.registeredParachains := by
        simpa [List.elem_iff] using hreg
      rw [ih _ hbr her]
      by_cases hi : i = p.resolvedId
      · subst hi
        simp [List.count_append, List.mem_append, hregm]
      · simp only [List.count_append]
        have hcnt : List.count i [p.resolvedId] = 0 := by
          simp [List.count_singleton, Ne.symm hi, hi]
        rw [hcnt]
        have hmem : (i ∈ List.map GenesisPara.resolvedId (p :: rest)
              ∧ i ∉ st.registeredParachains)
            ↔ (i ∈ List.map GenesisPara.resolvedId rest
              ∧ i ∉ st.registeredParachains ++ [p.resolvedId]) := by
          simp [List.mem_cons, List.mem_append, Ne.symm hi, hi]
        rw [if_congr hmem rfl rfl]
        omega

theorem addParas_registered_mem (env : RunEnv) (i : String) :
    ∀ (l : List GenesisPara) (st : GenesisBuildState),
      (∀ p ∈ l, env.binExists p.bin = true) →
      (∀ p ∈ l, env.exportOk p.bin = true) →
      (i ∈ l.map GenesisPara.resolvedId ∨ i ∈ st.registeredParachains) →
      i ∈ (addParachainsToGenesis env st l).registeredParachains := by
  intro l
  induction l with
  | nil =>
    intro st _ _ hmem
    simpa [addParachainsToGenesis] using hmem.resolve_left (by simp)
  | cons p rest ih =>
    intro st hb he hmem
    have hbp : env.binExists p.bin = true := hb p (List.mem_cons_self _ _)
    have hep : env.exportOk p.bin = true := he p (List.mem_cons_self _ _)
    have hbr : ∀ q ∈ rest, env.binExists q.bin = true := fun q hq => hb q (List.mem_cons_of_mem _ hq)
    have her : ∀ q ∈ rest, env.exportOk q.bin = true := fun q hq => he q (List.mem_cons_of_mem _ hq)
    unfold addParachainsToGenesis
    rw [hbp, hep]
    simp only [Bool.true_eq_false, if_false]
    by_cases hreg : st.registeredParachains.contains p.resolvedId
    · rw [if_pos hreg]
      have hregm : p.resolvedId ∈ st.registeredParachains := by
        simpa [List.elem_iff] using hreg
      refine ih st hbr her ?_
      rcases hmem with hl | hr
      · rcases (by simpa using hl : i = p.resolvedId ∨ i ∈ rest.map GenesisPara.resolvedId) with h | h
        · exact Or.inr (h ▸ hregm)
        · exact Or.inl h
      · exact Or.inr hr
    · rw [if_neg hreg]
      refine ih _ hbr her ?_
      rcases hmem with hl | hr
      · rcases (by simpa using hl : i = p.resolvedId ∨ i ∈ rest.map GenesisPara.resolvedId) with h | h
        · exact Or.inr (by simp [h])
        · exact Or.inl h
      · exact Or.inr (by simp [hr])

/-! ## Claim theorems -/

/-- Claim C1: for every launch plan, when two or more parachain entries (full
parachains first, then simple parachains, each group in declaration order)
resolve to the same id, `addParachainsToGenesis` writes exactly one genesis
registration entry for that id, and the registered-parachain set contains the
id after any prefix containing one of its entries has been processed. -/
theorem C1_unique_genesis_registration (env : RunEnv)
    (ps : List ParachainCfg) (ss : List SimpleParachainCfg) (i : String)
    (hb : ∀ p ∈ genesisParas ps ss, env.binExists p.bin = true)
    (he : ∀ p ∈ genesisParas ps ss, env.exportOk p.bin = true)
    (hdup : 2 ≤ ((genesisParas ps ss).map GenesisPara.resolvedId).count i) :
    (addParachainsToGenesis env
        { registeredParachains := [], entries := [], exitCode := none }
        (genesisParas ps ss)).entries.count i = 1
    ∧ ∀ k, i ∈ ((genesisParas ps ss).take k).map GenesisPara.resolvedId →
        i ∈ (addParachainsToGenesis env
              { registeredParachains := [], entries := [], exitCode := none }
              ((genesisParas ps ss).take k)).registeredParachains := by
  constructor
  · have h := addParas_entries_count env i (genesisParas ps ss)
      { registeredParachains := [], entries := [], exitCode := none } hb he
    have hmem : i ∈ (genesisParas ps ss).map GenesisPara.resolvedId := by
      by_contra hmem
      rw [List.count_eq_zero_of_not_mem hmem] at hdup
      omega
    simpa [hmem] using h
  · intro k hk
    exact addParas_registered_mem env i ((genesisParas ps ss).take k)
      { registeredParachains := [], entries := [], exitCode := none }
      (fun p hp => hb p (List.take_subset k _ hp))
      (fun p hp => he p (List.take_subset k _ hp))
      (Or.inl hk)

/-- Claim C1 witness: two full-parachain entries both resolved to id 2000
produce exactly one genesis registration entry for that id, and the id is
registered already after the first entry. -/
theorem C1_unique_genesis_registration_witness :
    2 ≤ ((genesisParas [paraW1, paraW2] []).map GenesisPara.resolvedId).count "2000"
    ∧ (addParachainsToGenesis envW
        { registeredParachains := [], entries := [], exitCode := none }
        (genesisParas [paraW1, paraW2] [])).entries.count "2000" = 1
    ∧ "2000" ∈ (addParachainsToGenesis envW
        { registeredParachains := [], entries := [], exitCode := none }
        ((genesisParas [paraW1, paraW2] []).take 1)).registeredParachains :=
  ⟨by decide,
   (C1_unique_genesis_registration envW [paraW1, paraW2] [] "2000"
      (by decide) (by decide) (by decide)).1,
   (C1_unique_genesis_registration envW [paraW1, paraW2] [] "2000"
      (by decide) (by decide) (by decide)).2 1 (by decide)⟩

/-- Claim C4: during the relay rolling restart over the node list, with
`epochTime = epochLength * blockTime`, the n-th node's stop/restart begins
exactly after n timed waits, hence no earlier than `n * epochTime` after the
phase begins, and at every moment (every prefix of the event trace) at most one
node is down. -/
theorem C4_rolling_restart_timing (epochLength blockTime : Nat)
    (names : List String) (n : Nat) (h1 : 1 ≤ n) (h2 : n ≤ names.length) :
    elapsedBefore (rollingRestart (relayEpochTime epochLength blockTime) names)
        (3 * (n - 1) + 1)
      = n * waitWithTimer (relayEpochTime epochLength blockTime)
    ∧ n * relayEpochTime epochLength blockTime
      ≤ elapsedBefore (rollingRestart (relayEpochTime epochLength blockTime) names)
          (3 * (n - 1) + 1)
    ∧ ∀ k, (downedNodes
        ((rollingRestart (relayEpochTime epochLength blockTime) names).take k)).length ≤ 1 := by
  have hk : n - 1 < names.length := by omega
  have he := elapsedBefore_kill (relayEpochTime epochLength blockTime) names (n - 1) hk
  have hn : n - 1 + 1 = n := by omega
  rw [hn] at he
  refine ⟨he, ?_, ?_⟩
  · rw [he]
    exact Nat.mul_le_mul_left n (le_waitWithTimer _)
  · intro k
    rcases downedNodes_take (relayEpochTime epochLength blockTime) names k with h | ⟨m, h⟩ <;>
      simp [h]

/-- Claim C4 witness: with two relay nodes, epochLength 100 and blockTime 6000
(epochTime 600000), node 2's restart begins at 1200000 ms, which is at least
2 x 600000 ms after the phase begins and 600000 ms after node 1's restart
began. -/
theorem C4_rolling_restart_timing_witness :
    (1 ≤ 2 ∧ 2 ≤ (["alice", "bob"] : List String).length)
    ∧ elapsedBefore (rollingRestart (relayEpochTime 100 6000) ["alice", "bob"]) (3 * (2 - 1) + 1)
        = 2 * waitWithTimer (relayEpochTime 100 6000)
    ∧ 2 * relayEpochTime 100 6000
        ≤ elapsedBefore (rollingRestart (relayEpochTime 100 6000) ["alice", "bob"]) (3 * (2 - 1) + 1) :=
  ⟨by decide,
   (C4_rolling_restart_timing 100 6000 ["alice", "bob"] 2 (by decide) (by decide)).1,
   (C4_rolling_restart_timing 100 6000 ["alice", "bob"] 2 (by decide) (by decide)).2.1⟩

/-- Claim C7 counterexample: the claim asserts that `paraId` always takes
precedence over `para_id`; but extraction uses JS `||`, so a spec with
`paraId: 0` and `para_id: 5` yields 5, not 0. -/
theorem C7_para_id_precedence_cex :
    getParachainIdFromSpec { paraId := some 0, para_id := some 5 } = some 5
    ∧ getParachainIdFromSpec { paraId := some 0, para_id := some 5 } ≠ some 0 := by
  constructor <;> decide

/-- Claim C7 (amended): the resolved id is extracted by checking both field
names, `paraId` taking precedence whenever it is present and nonzero (JS
truthiness), an absent `paraId` falling back to `para_id`; the number is
rendered as its decimal string, so a generated spec containing `para_id: 2000`
resolves to "2000". -/
theorem C7_para_id_extraction :
    (∀ (n : Nat) (q : Option Nat), n ≠ 0 →
        getParachainIdFromSpec { paraId := some n, para_id := q } = some n)
    ∧ (∀ q : Option Nat, getParachainIdFromSpec { paraId := none, para_id := q } = q)
    ∧ resolvedIdOfSpec { paraId := none, para_id := some 2000 } = some "2000" := by
  refine ⟨?_, ?_, ?_⟩
  · intro n q hn
    simp [getParachainIdFromSpec, jsNumOr, hn]
  · intro q
    rfl
  · rfl

/-- Claim C7 witness: a nonzero `paraId` wins over `para_id`, and
`para_id: 2000` with no `paraId` resolves to "2000". -/
theorem C7_para_id_extraction_witness :
    ((2000 : Nat) ≠ 0
      ∧ getParachainIdFromSpec { paraId := some 2000, para_id := some 5 } = some 2000)
    ∧ resolvedIdOfSpec { paraId := none, para_id := some 2000 } = some "2000" :=
  ⟨⟨by decide, C7_para_id_extraction.1 2000 (some 5) (by decide)⟩,
   C7_para_id_extraction.2.2⟩

/-- Claim C10: a plan whose parachain count is greater than or equal to its
relay-node count fails `checkConfig`, and `run` then returns null immediately:
no resolution, spec generation, or process start occurs (empty event trace). -/
theorem C10_parachain_count_guard (env : RunEnv) (cfg : LaunchConfig)
    (relay : RelaychainCfg) (paras : List ParachainCfg)
    (hrelay : cfg.relaychain = some relay)
    (hparas : cfg.parachains = some paras)
    (hge : relay.nodes.length ≤ paras.length) :
    checkConfig (some cfg) = false ∧ run env cfg = (RunOutcome.nullConfig, []) := by
  have hc : checkConfig (some cfg) = false := by
    simp only [checkConfig, checkConfigSome, hrelay, hparas]
    split_ifs <;> first | rfl | omega
  exact ⟨hc, by simp [run, hc]⟩

/-- Claim C10 witness: one relay node with one parachain is rejected by the
configuration check and `run` returns null with no work performed. -/
theorem C10_parachain_count_guard_witness :
    (cfgTooManyParasW.relaychain = some relaychainW
      ∧ cfgTooManyParasW.parachains = some [paraW1]
      ∧ relaychainW.nodes.length ≤ [paraW1].length)
    ∧ checkConfig (some cfgTooManyParasW) = false
    ∧ run envW cfgTooManyParasW = (RunOutcome.nullConfig, []) :=
  ⟨⟨rfl, rfl, by decide⟩,
   C10_parachain_count_guard envW cfgTooManyParasW relaychainW [paraW1] rfl rfl (by decide)⟩

/-- Claim C8: within one launch, a parachain's `setBalance` event can only
occur after every `startCollator` event of that parachain (every start index
precedes every balance index in the per-parachain trace), and within one
parachain runtime upgrade the inclusion of `authorizeUpgrade` strictly
precedes the submission of `enactAuthorizedUpgrade`. -/
theorem C8_balance_and_upgrade_ordering :
    (∀ (p : ParachainCfg) (i j w : Nat) (a : String),
        (launchParachainEvents p).get? i = some (RunEvent.startCollator w) →
        (launchParachainEvents p).get? j = some (RunEvent.setBalance a) → i < j)
    ∧ (∀ (codeHash code : String) (i j : Nat),
        (upgradeParachainRuntime codeHash code).get? i
            = some (TxEvent.included (Extrinsic.authorizeUpgrade codeHash)) →
        (upgradeParachainRuntime codeHash code).get? j
            = some (TxEvent.submitted (Extrinsic.enactAuthorizedUpgrade code)) → i < j) := by
  constructor
  · intro p i j w a hi hj
    have hshapeA : ∀ x ∈ (p.nodes.getD []).map (fun n => RunEvent.startCollator n.wsPort),
        ∃ ww, x = RunEvent.startCollator ww := by
      intro x hx
      rcases List.mem_map.mp hx with ⟨nd, _, rfl⟩
      exact ⟨nd.wsPort, rfl⟩
    have hshapeB : ∀ x ∈ (if p.balance == "" then []
          else [RunEvent.setBalance (p.resolvedId.getD "")]),
        ∃ aa, x = RunEvent.setBalance aa := by
      intro x hx
      by_cases hb : (p.balance == "") = true <;> simp [hb] at hx
      exact ⟨_, hx⟩
    have hiA : i < ((p.nodes.getD []).map (fun n => RunEvent.startCollator n.wsPort)).length := by
      by_contra hgei
      push_neg at hgei
      rw [launchParachainEvents, List.get?_append_right hgei] at hi
      rcases hshapeB _ (List.get?_mem hi) with ⟨aa, haa⟩
      exact RunEvent.noConfusion haa
    have hjA : ((p.nodes.getD []).map (fun n => RunEvent.startCollator n.wsPort)).length ≤ j := by
      by_contra hltj
      push_neg at hltj
      rw [launchParachainEvents, List.get?_append hltj] at hj
      rcases hshapeA _ (List.get?_mem hj) with ⟨ww, hww⟩
      exact RunEvent.noConfusion hww
    omega
  · intro codeHash code i j hi hj
    have hi4 : i < 4 := by
      rcases List.get?_eq_some.mp hi with ⟨hlt, _⟩
      simpa [upgradeParachainRuntime, executeTransactionTrace] using hlt
    have hj4 : j < 4 := by
      rcases List.get?_eq_some.mp hj with ⟨hlt, _⟩
      simpa [upgradeParachainRuntime, executeTransactionTrace] using hlt
    interval_cases i <;> interval_cases j <;>
      simp_all [upgradeParachainRuntime, executeTransactionTrace]

/-- Claim C8 witness: for a parachain with one node and a truthy balance the
start event (index 0) precedes the balance event (index 1), and in the upgrade
trace the authorize inclusion (index 1) precedes the enact submission
(index 2). -/
theorem C8_balance_and_upgrade_ordering_witness :
    ((launchParachainEvents paraW1).get? 0 = some (RunEvent.startCollator 9944)
      ∧ (launchParachainEvents paraW1).get? 1 = some (RunEvent.setBalance "2000")
      ∧ 0 < 1)
    ∧ ((upgradeParachainRuntime "hash" "code").get? 1
          = some (TxEvent.included (Extrinsic.authorizeUpgrade "hash"))
      ∧ (upgradeParachainRuntime "hash" "code").get? 2
          = some (TxEvent.submitted (Extrinsic.enactAuthorizedUpgrade "code"))
      ∧ 1 < 2) :=
  ⟨⟨by decide, by decide,
    C8_balance_and_upgrade_ordering.1 paraW1 0 1 9944 "2000" (by decide) (by decide)⟩,
   ⟨by decide, by decide,
    C8_balance_and_upgrade_ordering.2 "hash" "code" 1 2 (by decide) (by decide)⟩⟩

theorem toDigitsCore_length_ge (b : Nat) :
    ∀ (fuel n : Nat) (ds : List Char), ds.length ≤ (Nat.toDigitsCore b fuel n ds).length := by
  intro fuel
  induction fuel with
  | zero => intro n ds; simp [Nat.toDigitsCore]
  | succ f ih =>
    intro n ds
    simp only [Nat.toDigitsCore]
    split
    · simp
    · calc ds.length ≤ (Nat.digitChar (n % b) :: ds).length := by simp
        _ ≤ _ := ih (n / b) (Nat.digitChar (n % b) :: ds)

theorem toString_nat_ne_empty (n : Nat) : toString n ≠ "" := by
  show Nat.repr n ≠ ""
  have h1 : 1 ≤ (Nat.toDigits 10 n).length := by
    unfold Nat.toDigits
    simp only [Nat.toDigitsCore]
    split
    · simp
    · calc 1 ≤ ([Nat.digitChar (n % 10)] : List Char).length := by simp
        _ ≤ _ := toDigitsCore_length_ge 10 n (n / 10) [Nat.digitChar (n % 10)]
  intro hcontra
  have h2 : (Nat.toDigits 10 n).asString = "" := hcontra
  have h3 : Nat.toDigits 10 n = [] := congrArg String.data h2
  rw [h3] at h1
  simp at h1

/-- Claim C3 counterexample: under `resolveParachainId` of `src/src/runner.ts`,
a parachain entry that already carries `resolvedId = "2000"` but has no
explicit `id` is re-resolved by invoking `getParachainIdFromSpec` again — the
invocation trace is nonempty, contradicting the claim that the binary is not
re-invoked. -/
theorem C3_reresolution_invokes_binary_cex :
    paraCexCfg.resolvedId = some "2000"
    ∧ paraCexCfg.id = none
    ∧ (resolveParachainId envW [paraCexCfg]).2 = [RunEvent.getParachainIdFromSpec "collator"]
    ∧ (resolveParachainId envW [paraCexCfg]).2 ≠ [] := by
  refine ⟨rfl, rfl, by decide, by decide⟩

theorem resolveParaChecked_skip (env : RunEnv) (p : ParachainCfg)
    (h : jsTruthy p.resolvedId = true) : resolveParaChecked env p = (p, []) := by
  simp [resolveParaChecked, h]

theorem resolveParaChecked_truthy (env : RunEnv) (p : ParachainCfg) :
    jsTruthy (resolveParaChecked env p).1.resolvedId = true := by
  unfold resolveParaChecked
  split
  · next h => simpa using h
  · split
    · next h => simpa using h
    · have hbeq : (toString (env.paraIdFromSpec p.bin p.chain) == "") = false := by
        simpa using toString_nat_ne_empty (env.paraIdFromSpec p.bin p.chain)
      simp [jsTruthy, hbeq]

/-- Claim C3 (amended): in the variants that consult `resolvedId`
(`resolveParachainId` of `src/unnamed/part_003`, modeled by
`resolveParaChecked` / `resolveParachainIdChecked`), an entry already carrying
a resolved id is returned unchanged and `getParachainIdFromSpec` is not
invoked, and resolution applied twice equals resolution applied once (the
second application performs no binary invocations at all); in
`src/src/runner.ts`'s `resolveParachainId` the `resolvedId` field is not
consulted, and an already-resolved entry without an explicit id re-invokes
`getParachainIdFromSpec` (see the counterexample). -/
theorem C3_resolution_idempotent (env : RunEnv) :
    (∀ p : ParachainCfg, jsTruthy p.resolvedId = true → resolveParaChecked env p = (p, []))
    ∧ (∀ ps : List ParachainCfg,
        resolveParachainIdChecked env (resolveParachainIdChecked env ps).1
          = ((resolveParachainIdChecked env ps).1, []))
    ∧ (∀ ss : List SimpleParachainCfg,
        resolveSimpleParachainIds (resolveSimpleParachainIds ss)
          = resolveSimpleParachainIds ss) := by
  refine ⟨resolveParaChecked_skip env, ?_, ?_⟩
  · intro ps
    induction ps with
    | nil => rfl
    | cons p rest ih =>
      simp only [resolveParachainIdChecked]
      rw [resolveParaChecked_skip env _ (resolveParaChecked_truthy env p)]
      simp only [List.nil_append]
      rw [ih]
  · intro ss
    induction ss with
    | nil => rfl
    | cons sp rest ih =>
      simpa [resolveSimpleParachainIds] using ih

/-- Claim C3 witness: an entry already resolved to "2000" is returned
unchanged by the resolvedId-checking variant with no binary invocation, and a
second resolution pass over a list is the identity with an empty invocation
trace. -/
theorem C3_resolution_idempotent_witness :
    jsTruthy paraCexCfg.resolvedId = true
    ∧ resolveParaChecked envW paraCexCfg = (paraCexCfg, [])
    ∧ resolveParachainIdChecked envW (resolveParachainIdChecked envW [paraCexCfg]).1
        = ((resolveParachainIdChecked envW [paraCexCfg]).1, []) :=
  ⟨by decide, (C3_resolution_idempotent envW).1 paraCexCfg (by decide),
   (C3_resolution_idempotent envW).2.1 [paraCexCfg]⟩

/-! ## Lemmas about the verification loop -/

theorem lookupInfo_markUpdated (info : SessionInfo) (i q : String) :
    lookupInfo (markUpdated info i) q
      = if q = i then (lookupInfo info q).map (fun s => { s with has_updated := true })
        else lookupInfo info q := by
  induction info with
  | nil => by_cases h : q = i <;> simp [markUpdated, lookupInfo, h]
  | cons hd rest ih =>
    obtain ⟨k, s⟩ := hd
    by_cases hki : k = i
    · subst hki
      by_cases hkq : k = q
      · subst hkq
        simp [markUpdated, lookupInfo]
      · simp [markUpdated, lookupInfo, hkq, Ne.symm hkq]
    · by_cases hkq : k = q
      · subst hkq
        have hqi : ¬ k = i := hki
        simp [markUpdated, lookupInfo, hki, hqi]
      · simp [markUpdated, lookupInfo, hki, hkq, ih]

/-- Session profile of one visit: the flag is raised exactly when the polled
version differs from the baseline (raising an already-raised flag is a
no-op). -/
theorem checkParaUpgrade_lookup (oracle : Nat → String → Nat) (pass : Nat)
    (st : VerifyState) (i q : String) :
    lookupInfo (checkParaUpgrade oracle pass st i).info q
      = if q = i then
          (lookupInfo st.info q).map (fun s =>
            if oracle pass q ≠ s.old_version then { s with has_updated := true } else s)
        else lookupInfo st.info q := by
  unfold checkParaUpgrade
  split
  · next hl =>
    by_cases hq : q = i
    · subst hq; simp [hl]
    · simp [hq]
  · next s hl =>
    by_cases hu : s.has_updated = true
    · rw [if_pos hu]
      by_cases hq : q = i
      · subst hq
        rw [if_pos rfl, hl]
        obtain ⟨fn, ov, flag⟩ := s
        simp only at hu
        subst hu
        by_cases hdiff : oracle pass q ≠ ov <;> simp [hdiff]
      · rw [if_neg hq]
    · rw [if_neg hu]
      by_cases hdiff : oracle pass i ≠ s.old_version
      · rw [if_pos hdiff]
        show lookupInfo (markUpdated st.info i) q = _
        rw [lookupInfo_markUpdated]
        by_cases hq : q = i
        · subst hq
          rw [if_pos rfl, if_pos rfl, hl]
          simp [hdiff]
        · rw [if_neg hq, if_neg hq]
      · rw [if_neg hdiff]
        show lookupInfo st.info q = _
        by_cases hq : q = i
        · subst hq
          rw [if_pos rfl, hl]
          have heq : oracle pass q = s.old_version := by simpa using hdiff
          simp [heq]
        · rw [if_neg hq]

theorem checkParaUpgrade_failed (oracle : Nat → String → Nat) (pass : Nat)
    (st : VerifyState) (i : String) :
    (checkParaUpgrade oracle pass st i).failed
      = (st.failed || failNowB oracle pass st.info i) := by
  unfold checkParaUpgrade failNowB
  cases hl : lookupInfo st.info i with
  | none => simp
  | some s =>
    by_cases hu : s.has_updated = true
    · simp [hu]
    · have hu' : s.has_updated = false := by simpa using hu
      by_cases hdiff : oracle pass i ≠ s.old_version
      · simp [hu', hdiff]
      · have heq : oracle pass i = s.old_version := by simpa using hdiff
        simp [hu', hdiff, heq]

theorem checkParaUpgrade_reads (oracle : Nat → String → Nat) (pass : Nat)
    (st : VerifyState) (i : String) :
    (checkParaUpgrade oracle pass st i).reads
      = st.reads ++ (if readNowB st.info i = true then [(pass, i)] else []) := by
  unfold checkParaUpgrade readNowB
  cases hl : lookupInfo st.info i with
  | none => simp
  | some s =>
    by_cases hu : s.has_updated = true
    · simp [hu]
    · have hu' : s.has_updated = false := by simpa using hu
      by_cases hdiff : oracle pass i ≠ s.old_version <;> simp [hu', hdiff]

theorem failNowB_checkParaUpgrade (oracle : Nat → String → Nat) (pass : Nat)
    (st : VerifyState) (i q : String) :
    failNowB oracle pass (checkParaUpgrade oracle pass st i).info q
      = failNowB oracle pass st.info q := by
  unfold failNowB
  rw [checkParaUpgrade_lookup]
  by_cases hq : q = i
  · rw [if_pos hq]
    cases hl : lookupInfo st.info q with
    | none => simp
    | some s =>
      by_cases hdiff : oracle pass q ≠ s.old_version
      · have hne : decide (oracle pass q = s.old_version) = false := by simpa using hdiff
        simp [hdiff, hne]
      · have heq : oracle pass q = s.old_version := by simpa using hdiff
        simp [heq]
  · rw [if_neg hq]

theorem readNowB_checkParaUpgrade_ne (oracle : Nat → String → Nat) (pass : Nat)
    (st : VerifyState) (i q : String) (h : q ≠ i) :
    readNowB (checkParaUpgrade oracle pass st i).info q = readNowB st.info q := by
  unfold readNowB
  rw [checkParaUpgrade_lookup, if_neg h]

theorem readNowB_checkParaUpgrade_true (oracle : Nat → String → Nat) (pass : Nat)
    (st : VerifyState) (i q : String)
    (h : readNowB (checkParaUpgrade oracle pass st i).info q = true) :
    readNowB st.info q = true := by
  by_cases hq : q = i
  · subst hq
    unfold readNowB at h ⊢
    rw [checkParaUpgrade_lookup, if_pos rfl] at h
    cases hl : lookupInfo st.info q with
    | none => rw [hl] at h; simp at h
    | some s =>
      rw [hl] at h
      simp only [Option.map_some'] at h
      split at h
      · simp at h
      · exact h
  · rw [readNowB_checkParaUpgrade_ne oracle pass st i q hq] at h
    exact h

/-- Session profile of one whole pass: a session's flag is raised exactly when
its id is visited and the polled version differs from its baseline; baseline
and endpoint are never modified. -/
theorem foldl_checkParaUpgrade_lookup (oracle : Nat → String → Nat) (pass : Nat) :
    ∀ (ids : List String) (st : VerifyState) (q : String),
      lookupInfo (ids.foldl (checkParaUpgrade oracle pass) st).info q
        = (lookupInfo st.info q).map (fun s =>
            if q ∈ ids ∧ oracle pass q ≠ s.old_version then { s with has_updated := true }
            else s) := by
  intro ids
  induction ids with
  | nil =>
    intro st q
    simp only [List.foldl_nil, List.not_mem_nil, false_and, if_false]
    cases lookupInfo st.info q <;> rfl
  | cons i rest ih =>
    intro st q
    simp only [List.foldl_cons]
    rw [ih, checkParaUpgrade_lookup]
    by_cases hq : q = i
    · subst hq
      rw [if_pos rfl]
      cases hl : lookupInfo st.info q with
      | none => rfl
      | some s =>
        simp only [Option.map_some']
        by_cases hdiff : oracle pass q ≠ s.old_version
        · rw [if_pos hdiff]
          by_cases hrest : q ∈ rest
          · simp [hdiff, hrest]
          · simp [hdiff, hrest]
        · rw [if_neg hdiff]
          have heq : oracle pass q = s.old_version := by simpa using hdiff
          simp [heq]
    · rw [if_neg hq]
      cases hl : lookupInfo st.info q with
      | none => rfl
      | some s =>
        simp only [Option.map_some']
        simp [List.mem_cons, hq]

theorem foldl_checkParaUpgrade_failed (oracle : Nat → String → Nat) (pass : Nat) :
    ∀ (ids : List String) (st : VerifyState),
      (ids.foldl (checkParaUpgrade oracle pass) st).failed
        = (st.failed || ids.any (failNowB oracle pass st.info)) := by
  intro ids
  induction ids with
  | nil => intro st; simp
  | cons i rest ih =>
    intro st
    simp only [List.foldl_cons]
    rw [ih]
    have hfun : failNowB oracle pass (checkParaUpgrade oracle pass st i).info
        = failNowB oracle pass st.info :=
      funext fun q => failNowB_checkParaUpgrade oracle pass st i q
    rw [hfun, checkParaUpgrade_failed]
    simp [List.any_cons, Bool.or_assoc]

theorem foldl_checkParaUpgrade_reads_mono (oracle : Nat → String → Nat) (pass : Nat) :
    ∀ (ids : List String) (st : VerifyState) (e : Nat × String),
      e ∈ st.reads → e ∈ (ids.foldl (checkParaUpgrade oracle pass) st).reads := by
  intro ids
  induction ids with
  | nil => intro st e he; simpa using he
  | cons i rest ih =>
    intro st e he
    simp only [List.foldl_cons]
    refine ih _ e ?_
    rw [checkParaUpgrade_reads]
    exact List.mem_append.mpr (Or.inl he)

/-- Read profile of one whole pass: a poll `(q, j)` is recorded in the pass
exactly when `q` is the pass number, `j` is a visited id, and `j`'s session was
not yet marked updated when the pass began. -/
theorem foldl_checkParaUpgrade_reads (oracle : Nat → String → Nat) (pass : Nat) :
    ∀ (ids : List String) (st : VerifyState) (q : Nat) (j : String),
      ((q, j) ∈ (ids.foldl (checkParaUpgrade oracle pass) st).reads
        ↔ (q, j) ∈ st.reads ∨ (q = pass ∧ j ∈ ids ∧ readNowB st.info j = true)) := by
  intro ids
  induction ids with
  | nil => intro st q j; simp
  | cons i rest ih =>
    intro st q j
    simp only [List.foldl_cons]
    rw [ih]
    constructor
    · rintro (hmem | ⟨hqp, hjr, hread⟩)
      · rw [checkParaUpgrade_reads] at hmem
        rcases List.mem_append.mp hmem with h | h
        · exact Or.inl h
        · by_cases hr : readNowB st.info i = true
          · rw [if_pos hr] at h
            have heq : (q, j) = (pass, i) := List.mem_singleton.mp h
            have hq : q = pass := congrArg Prod.fst heq
            have hj : j = i := congrArg Prod.snd heq
            subst j
            exact Or.inr ⟨hq, List.mem_cons_self _ _, hr⟩
          · rw [if_neg hr] at h
            simp at h
      · have hread' : readNowB st.info j = true :=
          readNowB_checkParaUpgrade_true oracle _ st i j hread
        exact Or.inr ⟨hqp, List.mem_cons_of_mem _ hjr, hread'⟩
    · rintro (hmem | ⟨hqp, hji, hread⟩)
      · refine Or.inl ?_
        rw [checkParaUpgrade_reads]
        exact List.mem_append.mpr (Or.inl hmem)
      · subst q
        by_cases hjieq : j = i
        · subst hjieq
          refine Or.inl ?_
          rw [checkParaUpgrade_reads, if_pos hread]
          exact List.mem_append.mpr (Or.inr (List.mem_singleton.mpr rfl))
        · rcases List.mem_cons.mp hji with heq | hjr
          · exact absurd heq hjieq
          · refine Or.inr ⟨rfl, hjr, ?_⟩
            rw [readNowB_checkParaUpgrade_ne oracle _ st i j hjieq]
            exact hread

theorem verifyPass_lookup (oracle : Nat → String → Nat) (pass : Nat) (ids : List String)
    (st : VerifyState) (q : String) :
    lookupInfo (verifyPass oracle pass ids st).info q
      = (lookupInfo st.info q).map (fun s =>
          if q ∈ ids ∧ oracle pass q ≠ s.old_version then { s with has_updated := true }
          else s) :=
  foldl_checkParaUpgrade_lookup oracle pass ids { st with failed := false } q

theorem verifyPass_failed (oracle : Nat → String → Nat) (pass : Nat) (ids : List String)
    (st : VerifyState) :
    (verifyPass oracle pass ids st).failed = ids.any (failNowB oracle pass st.info) := by
  have h := foldl_checkParaUpgrade_failed oracle pass ids { st with failed := false }
  simpa using h

theorem verifyPass_reads (oracle : Nat → String → Nat) (pass : Nat) (ids : List String)
    (st : VerifyState) (q : Nat) (j : String) :
    (q, j) ∈ (verifyPass oracle pass ids st).reads
      ↔ (q, j) ∈ st.reads ∨ (q = pass ∧ j ∈ ids ∧ readNowB st.info j = true) :=
  foldl_checkParaUpgrade_reads oracle pass ids { st with failed := false } q j

theorem verifyLoop_count_le (oracle : Nat → String → Nat) (ids : List String) :
    ∀ (fuel pass : Nat) (st : VerifyState),
      (verifyLoop oracle ids fuel pass st).2 ≤ fuel := by
  intro fuel
  induction fuel with
  | zero => intro pass st; simp [verifyLoop]
  | succ f ih =>
    intro pass st
    simp only [verifyLoop]
    split
    · have := ih (pass + 1) (verifyPass oracle pass ids st)
      simpa using Nat.succ_le_succ this
    · simp

theorem verifyLoop_not_failed (oracle : Nat → String → Nat) (ids : List String)
    (fuel pass : Nat) (st : VerifyState) (h : st.failed = false) :
    verifyLoop oracle ids fuel pass st = (st, 0) := by
  cases fuel <;> simp [verifyLoop, h]

theorem verifyLoop_lookup (oracle : Nat → String → Nat) (ids : List String) :
    ∀ (fuel pass : Nat) (st : VerifyState) (j : String) (s : UpgradeSession),
      lookupInfo st.info j = some s →
      ∃ s', lookupInfo (verifyLoop oracle ids fuel pass st).1.info j = some s'
        ∧ s'.old_version = s.old_version ∧ s'.first_node = s.first_node
        ∧ (s.has_updated = true → s'.has_updated = true) := by
  intro fuel
  induction fuel with
  | zero =>
    intro pass st j s h
    exact ⟨s, by simpa [verifyLoop] using h, rfl, rfl, fun hh => hh⟩
  | succ f ih =>
    intro pass st j s h
    simp only [verifyLoop]
    split
    · have h2 : lookupInfo (verifyPass oracle pass ids st).info j
          = some (if j ∈ ids ∧ oracle pass j ≠ s.old_version then { s with has_updated := true }
                  else s) := by
        rw [verifyPass_lookup, h]
        rfl
      obtain ⟨s', h3, h4, h5, h6⟩ := ih (pass + 1) _ j _ h2
      refine ⟨s', h3, ?_, ?_, ?_⟩
      · rw [h4]
        by_cases hc : j ∈ ids ∧ oracle pass j ≠ s.old_version <;> simp [hc]
      · rw [h5]
        by_cases hc : j ∈ ids ∧ oracle pass j ≠ s.old_version <;> simp [hc]
      · intro hu
        apply h6
        by_cases hc : j ∈ ids ∧ oracle pass j ≠ s.old_version <;> simp [hc, hu]
    · exact ⟨s, h, rfl, rfl, fun hh => hh⟩

theorem verifyLoop_lookup_isSome (oracle : Nat → String → Nat) (ids : List String) :
    ∀ (fuel pass : Nat) (st : VerifyState) (j : String),
      (lookupInfo (verifyLoop oracle ids fuel pass st).1.info j).isSome
        = (lookupInfo st.info j).isSome := by
  intro fuel
  induction fuel with
  | zero => intro pass st j; simp [verifyLoop]
  | succ f ih =>
    intro pass st j
    simp only [verifyLoop]
    split
    · rw [ih (pass + 1) (verifyPass oracle pass ids st) j, verifyPass_lookup]
      cases lookupInfo st.info j <;> rfl
    · rfl

theorem verifyLoop_reads_mono (oracle : Nat → String → Nat) (ids : List String) :
    ∀ (fuel pass : Nat) (st : VerifyState) (e : Nat × String),
      e ∈ st.reads → e ∈ (verifyLoop oracle ids fuel pass st).1.reads := by
  intro fuel
  induction fuel with
  | zero => intro pass st e he; simpa [verifyLoop] using he
  | succ f ih =>
    intro pass st e he
    simp only [verifyLoop]
    split
    · refine ih (pass + 1) _ e ?_
      obtain ⟨q, j⟩ := e
      exact (verifyPass_reads oracle pass ids st q j).mpr (Or.inl he)
    · exact he

theorem verifyLoop_flip (oracle : Nat → String → Nat) (ids : List String) :
    ∀ (fuel pass : Nat) (st : VerifyState) (j : String) (s : UpgradeSession),
      lookupInfo st.info j = some s → s.has_updated = false →
      ∀ s', lookupInfo (verifyLoop oracle ids fuel pass st).1.info j = some s' →
        s'.has_updated = true →
        ∃ p, (p, j) ∈ (verifyLoop oracle ids fuel pass st).1.reads
          ∧ oracle p j ≠ s.old_version := by
  intro fuel
  induction fuel with
  | zero =>
    intro pass st j s h hu s' h' hu'
    have h2 : lookupInfo st.info j = some s' := h'
    rw [h] at h2
    cases h2
    rw [hu] at hu'
    exact absurd hu' (by simp)
  | succ f ih =>
    intro pass st j s h hu s' h' hu'
    by_cases hf : st.failed = true
    · simp only [verifyLoop, hf, if_true] at h' hu' ⊢
      by_cases hc : j ∈ ids ∧ oracle pass j ≠ s.old_version
      · -- flag raised this pass: this pass reads j
        refine ⟨pass, ?_, hc.2⟩
        have hrd : (pass, j) ∈ (verifyPass oracle pass ids st).reads := by
          rw [verifyPass_reads]
          exact Or.inr ⟨rfl, hc.1, by simp [readNowB, h, hu]⟩
        exact verifyLoop_reads_mono oracle ids f (pass + 1) _ (pass, j) hrd
      · -- unchanged this pass: recurse
        have h2 : lookupInfo (verifyPass oracle pass ids st).info j = some s := by
          rw [verifyPass_lookup, h]
          simp [hc]
        obtain ⟨p, hp1, hp2⟩ := ih (pass + 1) _ j s h2 hu s' h' hu'
        exact ⟨p, hp1, hp2⟩
    · have hf' : st.failed = false := by simpa using hf
      rw [verifyLoop_not_failed oracle ids (f + 1) pass st hf'] at h'
      have h2 : lookupInfo st.info j = some s' := h'
      rw [h] at h2
      cases h2
      rw [hu] at hu'
      exact absurd hu' (by simp)

theorem verifyPass_success (oracle : Nat → String → Nat) (pass : Nat) (ids : List String)
    (st : VerifyState) (h : (verifyPass oracle pass ids st).failed = false) :
    ∀ j, j ∈ ids → ∀ s', lookupInfo (verifyPass oracle pass ids st).info j = some s' →
      s'.has_updated = true := by
  intro j hj s' hs'
  have hany : ids.any (failNowB oracle pass st.info) = false := by
    rw [verifyPass_failed] at h
    exact h
  have hjf : failNowB oracle pass st.info j = false := by
    rcases List.any_eq_false.mp hany j hj with h2
    simpa using h2
  rw [verifyPass_lookup] at hs'
  cases hl : lookupInfo st.info j with
  | none => rw [hl] at hs'; cases hs'
  | some s =>
    rw [hl] at hs'
    simp only [Option.map_some'] at hs'
    have hs'' : s' = if j ∈ ids ∧ oracle pass j ≠ s.old_version
        then { s with has_updated := true } else s := by
      cases hs'
      rfl
    by_cases hu : s.has_updated = true
    · subst hs''
      by_cases hc : j ∈ ids ∧ oracle pass j ≠ s.old_version <;> simp [hc, hu]
    · have hu' : s.has_updated = false := by simpa using hu
      unfold failNowB at hjf
      rw [hl] at hjf
      simp only [hu'] at hjf
      have hne : oracle pass j ≠ s.old_version := by
        intro heq
        rw [heq] at hjf
        simp at hjf
      subst hs''
      simp [hj, hne]

theorem verifyLoop_success (oracle : Nat → String → Nat) (ids : List String) :
    ∀ (fuel pass : Nat) (st : VerifyState), st.failed = true →
      (verifyLoop oracle ids fuel pass st).1.failed = false →
      ∀ j, j ∈ ids →
        ∀ s', lookupInfo (verifyLoop oracle ids fuel pass st).1.info j = some s' →
          s'.has_updated = true := by
  intro fuel
  induction fuel with
  | zero =>
    intro pass st hf hf' j hj s' hs'
    have : (verifyLoop oracle ids 0 pass st).1.failed = true := hf
    rw [hf'] at this
    cases this
  | succ f ih =>
    intro pass st hf hf' j hj s' hs'
    simp only [verifyLoop, hf, if_true] at hf' hs' ⊢
    by_cases h1 : (verifyPass oracle pass ids st).failed = true
    · exact ih (pass + 1) _ h1 hf' j hj s' hs'
    · have h1' : (verifyPass oracle pass ids st).failed = false := by simpa using h1
      rw [verifyLoop_not_failed oracle ids f (pass + 1) _ h1'] at hf' hs'
      exact verifyPass_success oracle pass ids st h1' j hj s' hs'

theorem sessUpd_old_version (s0 : UpgradeSession) (c : Prop) [Decidable c] :
    (if c then { s0 with has_updated := true } else s0).old_version = s0.old_version := by
  by_cases hc : c <;> simp [hc]

theorem readNowB_spec (info : SessionInfo) (j : String) (h : readNowB info j = true) :
    ∃ s, lookupInfo info j = some s ∧ s.has_updated = false := by
  cases hl : lookupInfo info j with
  | none => simp [readNowB, hl] at h
  | some s =>
    refine ⟨s, rfl, ?_⟩
    simp [readNowB, hl] at h
    exact h

theorem verifyPass_lookup_some (oracle : Nat → String → Nat) (pass : Nat) (ids : List String)
    (st : VerifyState) (j : String) (s0 : UpgradeSession)
    (h : lookupInfo st.info j = some s0) :
    lookupInfo (verifyPass oracle pass ids st).info j
      = some (if j ∈ ids ∧ oracle pass j ≠ s0.old_version
              then { s0 with has_updated := true } else s0) := by
  rw [verifyPass_lookup, h]
  rfl

theorem verifyPass_lookup_some_rev (oracle : Nat → String → Nat) (pass : Nat)
    (ids : List String) (st : VerifyState) (j : String) (s1 : UpgradeSession)
    (h : lookupInfo (verifyPass oracle pass ids st).info j = some s1) :
    ∃ s0, lookupInfo st.info j = some s0
      ∧ s1 = (if j ∈ ids ∧ oracle pass j ≠ s0.old_version
              then { s0 with has_updated := true } else s0) := by
  rw [verifyPass_lookup] at h
  cases hl : lookupInfo st.info j with
  | none => rw [hl] at h; cases h
  | some s0 =>
    rw [hl] at h
    simp only [Option.map_some'] at h
    exact ⟨s0, rfl, (Option.some.inj h).symm⟩

/-- Soundness of the recorded polls over the whole retry loop: every poll
`(q, j)` concerns a session that was unmarked at the start, and all earlier
passes also polled `j` and observed exactly its baseline version (otherwise the
session would have been marked and skipped). -/
theorem verifyLoop_reads_sound (oracle : Nat → String → Nat) (ids : List String) :
    ∀ (fuel pass : Nat) (st : VerifyState),
      (∀ q j, (q, j) ∈ st.reads → q < pass) →
      (∀ j, j ∈ ids → ∀ s, lookupInfo st.info j = some s → s.has_updated = false →
        ∀ q, q < pass → ((q, j) ∈ st.reads ∧ oracle q j = s.old_version)) →
      (∀ q j, (q, j) ∈ st.reads → ∀ r, r < q →
        ((r, j) ∈ st.reads ∧ ∀ s, lookupInfo st.info j = some s →
          oracle r j = s.old_version)) →
      ((∀ q j, (q, j) ∈ (verifyLoop oracle ids fuel pass st).1.reads → ∀ r, r < q →
          ((r, j) ∈ (verifyLoop oracle ids fuel pass st).1.reads
            ∧ ∀ s, lookupInfo st.info j = some s → oracle r j = s.old_version))
        ∧ (∀ q j, (q, j) ∈ (verifyLoop oracle ids fuel pass st).1.reads →
            (q, j) ∈ st.reads ∨ ∃ s, lookupInfo st.info j = some s ∧ s.has_updated = false)) := by
  intro fuel
  induction fuel with
  | zero =>
    intro pass st h1 h2 h3
    exact ⟨h3, fun q j hq => Or.inl hq⟩
  | succ f ih =>
    intro pass st h1 h2 h3
    by_cases hf : st.failed = true
    case neg =>
      have hf' : st.failed = false := by simpa using hf
      rw [verifyLoop_not_failed oracle ids (f + 1) pass st hf']
      exact ⟨h3, fun q j hq => Or.inl hq⟩
    case pos =>
      simp only [verifyLoop, hf, if_true]
      have h1' : ∀ q j, (q, j) ∈ (verifyPass oracle pass ids st).reads → q < pass + 1 := by
        intro q j hq
        rcases (verifyPass_reads oracle pass ids st q j).mp hq with hold | ⟨hqe, _, _⟩
        · exact Nat.lt_succ_of_lt (h1 q j hold)
        · rw [hqe]
          exact Nat.lt_succ_self pass
      have h2' : ∀ j, j ∈ ids →
          ∀ s1, lookupInfo (verifyPass oracle pass ids st).info j = some s1 →
          s1.has_updated = false → ∀ q, q < pass + 1 →
          ((q, j) ∈ (verifyPass oracle pass ids st).reads ∧ oracle q j = s1.old_version) := by
        intro j hj s1 hs1 hu1 q hq
        obtain ⟨s0, hs0, heq⟩ := verifyPass_lookup_some_rev oracle pass ids st j s1 hs1
        by_cases hc : j ∈ ids ∧ oracle pass j ≠ s0.old_version
        · rw [if_pos hc] at heq
          rw [heq] at hu1
          simp at hu1
        · rw [if_neg hc] at heq
          rw [heq] at hu1 ⊢
          have hceq : oracle pass j = s0.old_version := by
            by_contra hne
            exact hc ⟨hj, hne⟩
          rcases Nat.lt_succ_iff_lt_or_eq.mp hq with hlt | hqe
          · obtain ⟨hr, ho⟩ := h2 j hj s0 hs0 hu1 q hlt
            exact ⟨(verifyPass_reads oracle pass ids st q j).mpr (Or.inl hr), ho⟩
          · subst q
            refine ⟨(verifyPass_reads oracle pass ids st pass j).mpr ?_, hceq⟩
            exact Or.inr ⟨rfl, hj, by simp [readNowB, hs0, hu1]⟩
      have h3' : ∀ q j, (q, j) ∈ (verifyPass oracle pass ids st).reads → ∀ r, r < q →
          ((r, j) ∈ (verifyPass oracle pass ids st).reads
            ∧ ∀ s1, lookupInfo (verifyPass oracle pass ids st).info j = some s1 →
              oracle r j = s1.old_version) := by
        intro q j hq r hr
        rcases (verifyPass_reads oracle pass ids st q j).mp hq with hold | ⟨hqe, hj, hrn⟩
        · obtain ⟨hr1, hr2⟩ := h3 q j hold r hr
          refine ⟨(verifyPass_reads oracle pass ids st r j).mpr (Or.inl hr1), ?_⟩
          intro s1 hs1
          obtain ⟨s0, hs0, heq⟩ := verifyPass_lookup_some_rev oracle pass ids st j s1 hs1
          rw [heq, sessUpd_old_version]
          exact hr2 s0 hs0
        · subst q
          obtain ⟨s0, hs0, hu0⟩ := readNowB_spec st.info j hrn
          obtain ⟨hr1, hr2⟩ := h2 j hj s0 hs0 hu0 r hr
          refine ⟨(verifyPass_reads oracle pass ids st r j).mpr (Or.inl hr1), ?_⟩
          intro s1 hs1
          obtain ⟨s0', hs0', heq⟩ := verifyPass_lookup_some_rev oracle pass ids st j s1 hs1
          rw [hs0] at hs0'
          cases hs0'
          rw [heq, sessUpd_old_version]
          exact hr2
      obtain ⟨c1, c2⟩ := ih (pass + 1) (verifyPass oracle pass ids st) h1' h2' h3'
      constructor
      · intro q j hq r hr
        obtain ⟨d1, d2⟩ := c1 q j hq r hr
        refine ⟨d1, ?_⟩
        intro s0 hs0
        have hs1 := verifyPass_lookup_some oracle pass ids st j s0 hs0
        have hd := d2 _ hs1
        rw [sessUpd_old_version] at hd
        exact hd
      · intro q j hq
        rcases c2 q j hq with hin | ⟨s1, hs1, hu1⟩
        · rcases (verifyPass_reads oracle pass ids st q j).mp hin with hold | ⟨_, _, hrn⟩
          · exact Or.inl hold
          · obtain ⟨s0, hs0, hu0⟩ := readNowB_spec st.info j hrn
            exact Or.inr ⟨s0, hs0, hu0⟩
        · obtain ⟨s0, hs0, heq⟩ := verifyPass_lookup_some_rev oracle pass ids st j s1 hs1
          refine Or.inr ⟨s0, hs0, ?_⟩
          by_cases hc : j ∈ ids ∧ oracle pass j ≠ s0.old_version
          · rw [if_pos hc] at heq
            rw [heq] at hu1
            simp at hu1
          · rw [if_neg hc] at heq
            rw [heq] at hu1
            exact hu1

theorem verifyLoopR_count_le (oracle : Nat → String → Nat) (ids : List String) :
    ∀ (fuel pass : Nat) (st : VerifyStateR),
      (verifyLoopR oracle ids fuel pass st).2 ≤ fuel := by
  intro fuel
  induction fuel with
  | zero => intro pass st; simp [verifyLoopR]
  | succ f ih =>
    intro pass st
    simp only [verifyLoopR]
    split
    · have := ih (pass + 1) (verifyPassR oracle pass ids st)
      simpa using Nat.succ_le_succ this
    · simp

/-- Claim C5: in the upgrade-verification loop, every session's `has_updated`
flag starts false (session creation), is never reset (monotone), flips to
true only when a polling pass observes a version different from the baseline,
and once flipped the session is never polled again: every recorded poll
`(q, j)` concerns a session that was unmarked initially, and every earlier
pass polled `j` observing exactly the baseline version. -/
theorem C5_session_flag_monotone (oracle : Nat → String → Nat) (ids : List String)
    (info0 : SessionInfo) :
    (∀ w v, (mkUpgradeSession w v).has_updated = false)
    ∧ (∀ j s, lookupInfo info0 j = some s →
        ∃ s', lookupInfo (verifyParachainUpgrades oracle ids info0).1.info j = some s'
          ∧ s'.old_version = s.old_version ∧ s'.first_node = s.first_node
          ∧ (s.has_updated = true → s'.has_updated = true)
          ∧ (s.has_updated = false → s'.has_updated = true →
              ∃ p, (p, j) ∈ (verifyParachainUpgrades oracle ids info0).1.reads
                ∧ oracle p j ≠ s.old_version))
    ∧ (∀ q j, (q, j) ∈ (verifyParachainUpgrades oracle ids info0).1.reads →
        ((∃ s, lookupInfo info0 j = some s ∧ s.has_updated = false)
          ∧ ∀ r, r < q →
              ((r, j) ∈ (verifyParachainUpgrades oracle ids info0).1.reads
                ∧ ∀ s, lookupInfo info0 j = some s → oracle r j = s.old_version))) := by
  refine ⟨fun w v => rfl, ?_, ?_⟩
  · intro j s hs
    obtain ⟨s', h1, h2, h3, h4⟩ := verifyLoop_lookup oracle ids 3 0
      { info := info0, failed := true, reads := [] } j s hs
    refine ⟨s', h1, h2, h3, h4, ?_⟩
    intro hu hu'
    exact verifyLoop_flip oracle ids 3 0 _ j s hs hu s' h1 hu'
  · have hsound := verifyLoop_reads_sound oracle ids 3 0
      { info := info0, failed := true, reads := [] }
      (by intro q j h; simp at h)
      (by intro j hj s hs hu q hq; exact absurd hq (Nat.not_lt_zero q))
      (by intro q j h; simp at h)
    intro q j hq
    refine ⟨?_, ?_⟩
    · rcases hsound.2 q j hq with h | h
      · simp at h
      · exact h
    · intro r hr
      exact hsound.1 q j hq r hr

/-- Claim C5 witness (Scenario E): with two sessions of baseline 42 and an
oracle under which parachain A reports 43 from pass 0 on, A's flag flips and A
is polled only at pass 0, while B keeps being polled. -/
theorem C5_session_flag_monotone_witness :
    lookupInfo infoW "A" = some (mkUpgradeSession 1 42)
    ∧ (∃ s', lookupInfo (verifyParachainUpgrades oracleW idsW infoW).1.info "A" = some s'
        ∧ s'.old_version = (mkUpgradeSession 1 42).old_version
        ∧ s'.first_node = (mkUpgradeSession 1 42).first_node
        ∧ ((mkUpgradeSession 1 42).has_updated = true → s'.has_updated = true)
        ∧ ((mkUpgradeSession 1 42).has_updated = false → s'.has_updated = true →
            ∃ p, (p, "A") ∈ (verifyParachainUpgrades oracleW idsW infoW).1.reads
              ∧ oracleW p "A" ≠ (mkUpgradeSession 1 42).old_version)) :=
  ⟨rfl, (C5_session_flag_monotone oracleW idsW infoW).2.1 "A" (mkUpgradeSession 1 42) rfl⟩

/-- Claim C2 counterexample: the verification loop of `runThenTryUpgrade` in
`src/src/runner.ts` (lines 435-464) is bounded by `try_n < 10`, not 3: with a
parachain whose spec version never changes it performs exactly 10 polling
passes, so the claim's bound of at most 3 passes does not hold for every
upgrade-test run. -/
theorem C2_runner_ten_passes_cex :
    (verifyParachainUpgradesR (fun _ _ => 5) ["2000"] [("2000", runnerSessW)]).2 = 10
    ∧ ¬ ((verifyParachainUpgradesR (fun _ _ => 5) ["2000"] [("2000", runnerSessW)]).2 ≤ 3) := by
  constructor <;> decide

/-- Claim C2 (amended): the parachain upgrade-verification loop always
terminates; in the variants that track `has_updated`
(`src/unnamed/part_002`/`part_003`) it performs at most 3 polling passes, and
when it ends without a recorded failure every session is marked upgraded; the
`src/src/runner.ts` variant performs at most 10 passes. -/
theorem C2_verification_bounded (oracle : Nat → String → Nat) (ids : List String)
    (info0 : SessionInfo)
    (hkeys : ∀ j s, lookupInfo info0 j = some s → j ∈ ids) :
    (verifyParachainUpgrades oracle ids info0).2 ≤ 3
    ∧ ((verifyParachainUpgrades oracle ids info0).1.failed = false →
        ∀ j s', lookupInfo (verifyParachainUpgrades oracle ids info0).1.info j = some s' →
          s'.has_updated = true)
    ∧ (∀ (oracleR : Nat → String → Nat) (idsR : List String)
          (infoR : List (String × RunnerSession)),
        (verifyParachainUpgradesR oracleR idsR infoR).2 ≤ 10) := by
  refine ⟨verifyLoop_count_le oracle ids 3 0 _, ?_, ?_⟩
  · intro hfail j s' hs'
    have hs'' : lookupInfo (verifyLoop oracle ids 3 0
        { info := info0, failed := true, reads := [] }).1.info j = some s' := hs'
    have hsome := verifyLoop_lookup_isSome oracle ids 3 0
      { info := info0, failed := true, reads := [] } j
    rw [hs''] at hsome
    cases hl : lookupInfo info0 j with
    | none =>
      have : (lookupInfo info0 j).isSome = true := by rw [← hsome]; rfl
      rw [hl] at this
      cases this
    | some s =>
      exact verifyLoop_success oracle ids 3 0 _ rfl hfail j (hkeys j s hl) s' hs''
  · intro oracleR idsR infoR
    exact verifyLoopR_count_le oracleR idsR 10 0 _

/-- Claim C2 witness: a run whose single parachain upgrades immediately stays
within the 3-pass bound, and the runner.ts-variant bound of 10 holds on a
concrete run as well. -/
theorem C2_verification_bounded_witness :
    (verifyParachainUpgrades (fun _ _ => 43) ["2000"] [("2000", mkUpgradeSession 9944 42)]).2 ≤ 3
    ∧ (verifyParachainUpgradesR (fun _ _ => 7) ["2000"] [("2000", runnerSessW)]).2 ≤ 10 :=
  ⟨(C2_verification_bounded (fun _ _ => 43) ["2000"] [("2000", mkUpgradeSession 9944 42)]
      (by
        intro j s h
        by_cases hj : "2000" = j
        · rw [← hj]; exact List.mem_singleton.mpr rfl
        · simp [lookupInfo, hj] at h)).1,
   (C2_verification_bounded (fun _ _ => 43) ["2000"] [("2000", mkUpgradeSession 9944 42)]
      (by
        intro j s h
        by_cases hj : "2000" = j
        · rw [← hj]; exact List.mem_singleton.mpr rfl
        · simp [lookupInfo, hj] at h)).2.2 (fun _ _ => 7) ["2000"] [("2000", runnerSessW)]⟩

/-- Claim C6: after the relay upgrade submission the relay outcome is a
success exactly when the re-read version differs from the baseline; an
unchanged version only sets `relay_upgrade_failed` (the `process.exit()` in
that branch is commented out in the source, so the model's straight-line
phase list is unconditional), the parachain authorize+enact submissions and
the verification loop still execute for every live session, the parachain
outcome does not depend on the relay versions, and the final summary combines
the two independent failure flags. -/
theorem C6_relay_failure_recorded (relay_old relay_new : Nat)
    (oracle : Nat → String → Nat) (paraIds : List String) (info0 : SessionInfo) :
    ((upgradeTestTail relay_old relay_new oracle paraIds info0).relay_upgrade_failed = false
        ↔ relay_new ≠ relay_old)
    ∧ (∀ i, i ∈ paraIds → (lookupInfo info0 i).isSome = true →
        UpgradePhase.authorizeAndEnact i
          ∈ (upgradeTestTail relay_old relay_new oracle paraIds info0).phases)
    ∧ UpgradePhase.verifyParachains
        ∈ (upgradeTestTail relay_old relay_new oracle paraIds info0).phases
    ∧ (∀ v1 v2, (upgradeTestTail v1 v2 oracle paraIds info0).parachains_upgrade_failed
        = (upgradeTestTail relay_old relay_new oracle paraIds info0).parachains_upgrade_failed)
    ∧ UpgradePhase.printSummary
        (!((upgradeTestTail relay_old relay_new oracle paraIds info0).parachains_upgrade_failed
            || (upgradeTestTail relay_old relay_new oracle paraIds info0).relay_upgrade_failed))
        ∈ (upgradeTestTail relay_old relay_new oracle paraIds info0).phases := by
  refine ⟨?_, ?_, ?_, ?_, ?_⟩
  · simp only [upgradeTestTail]
    constructor
    · intro h heq
      rw [heq] at h
      simp at h
    · intro h
      have : relay_old ≠ relay_new := fun heq => h heq.symm
      simpa using this
  · intro i hi hsome
    have hmemf : i ∈ paraIds.filter (fun x => (lookupInfo info0 x).isSome) := by
      rw [List.mem_filter]
      exact ⟨hi, hsome⟩
    simp only [upgradeTestTail]
    refine List.mem_cons_of_mem _ (List.mem_cons_of_mem _ ?_)
    refine List.mem_append_left _ ?_
    exact List.mem_map.mpr ⟨i, hmemf, rfl⟩
  · simp [upgradeTestTail]
  · intro v1 v2
    rfl
  · simp [upgradeTestTail]

/-- Claim C6 witness (Scenario D): a relay whose re-read version equals the
baseline has `relay_upgrade_failed` recorded, while the parachain
authorize+enact submission and verification phases still appear in the phase
list. -/
theorem C6_relay_failure_recorded_witness :
    (upgradeTestTail 5 5 oracleW idsW infoW).relay_upgrade_failed = true
    ∧ UpgradePhase.authorizeAndEnact "A" ∈ (upgradeTestTail 5 5 oracleW idsW infoW).phases
    ∧ UpgradePhase.verifyParachains ∈ (upgradeTestTail 5 5 oracleW idsW infoW).phases :=
  ⟨by decide,
   (C6_relay_failure_recorded 5 5 oracleW idsW infoW).2.1 "A" (by decide) (by decide),
   (C6_relay_failure_recorded 5 5 oracleW idsW infoW).2.2.1⟩

theorem jsTruthy_isSome (o : Option String) (h : jsTruthy o = true) : o.isSome = true := by
  cases o with
  | none => simp [jsTruthy] at h
  | some s => rfl

theorem checkConfigSome_shapes (cfg : LaunchConfig) (h : checkConfigSome cfg = true) :
    ∃ relay paras, cfg.relaychain = some relay ∧ cfg.parachains = some paras := by
  unfold checkConfigSome at h
  split at h
  · exact Bool.noConfusion h
  · next relay hrelay =>
    split_ifs at h
    all_goals try exact Bool.noConfusion h
    split at h
    · exact Bool.noConfusion h
    · next paras hparas => exact ⟨relay, paras, hrelay, hparas⟩

theorem resolvePara_isSome (env : RunEnv) (p : ParachainCfg) :
    (resolvePara env p).1.resolvedId.isSome = true := by
  unfold resolvePara
  split
  · next h => exact jsTruthy_isSome p.id h
  · rfl

theorem resolveParachainId_isSome (env : RunEnv) :
    ∀ (ps : List ParachainCfg) (p' : ParachainCfg),
      p' ∈ (resolveParachainId env ps).1 → p'.resolvedId.isSome = true := by
  intro ps
  induction ps with
  | nil => intro p' h; simp [resolveParachainId] at h
  | cons p rest ih =>
    intro p' h
    simp only [resolveParachainId] at h
    rcases List.mem_cons.mp h with heq | hmem
    · rw [heq]
      exact resolvePara_isSome env p
    · exact ih p' hmem

theorem resolveSimpleParachainIds_isSome (ss : List SimpleParachainCfg) :
    ∀ sp' ∈ resolveSimpleParachainIds ss, sp'.resolvedId.isSome = true := by
  intro sp' h
  rcases List.mem_map.mp h with ⟨sp, _, heq⟩
  rw [← heq]
  rfl

theorem generateNodeKeysGo_isSome (env : RunEnv) :
    ∀ (nodes : List RelayNodeCfg) (idx : Nat) (n' : RelayNodeCfg),
      n' ∈ (generateNodeKeysGo env idx nodes).1 → n'.nodeKey.isSome = true := by
  intro nodes
  induction nodes with
  | nil => intro idx n' h; simp [generateNodeKeysGo] at h
  | cons node rest ih =>
    intro idx n' h
    simp only [generateNodeKeysGo] at h
    rcases List.mem_cons.mp h with heq | hmem
    · rw [heq]
      rfl
    · exact ih (idx + 1) n' hmem

/-- Claim C9: `run` returns null exactly when the initial `checkConfig` fails,
and in that case nothing has been done (its event trace is empty: no spec
generated, no process started); a missing binary or failed genesis export
terminates the process instead (`RunOutcome.exited`), and on the normal path
the returned plan carries a resolved id for every parachain and simple
parachain and a node key for every relay node. -/
theorem C9_run_null_iff (env : RunEnv) (rawConfig : LaunchConfig) :
    ((run env rawConfig).1 = RunOutcome.nullConfig ↔ checkConfig (some rawConfig) = false)
    ∧ (checkConfig (some rawConfig) = false → (run env rawConfig).2 = [])
    ∧ (∀ c, (run env rawConfig).1 = RunOutcome.ok c →
        (∀ ps, c.parachains = some ps → ∀ p ∈ ps, p.resolvedId.isSome = true)
        ∧ (∀ ss, c.simpleParachains = some ss → ∀ sp ∈ ss, sp.resolvedId.isSome = true)
        ∧ (∀ relay, c.relaychain = some relay → ∀ n ∈ relay.nodes, n.nodeKey.isSome = true)) := by
  by_cases hc : checkConfig (some rawConfig) = false
  · refine ⟨by simp [run, hc], fun _ => by simp [run, hc], ?_⟩
    intro c hok
    rw [show (run env rawConfig).1 = RunOutcome.nullConfig from by simp [run, hc]] at hok
    exact RunOutcome.noConfusion hok
  · have hc' : checkConfig (some rawConfig) = true := by simpa using hc
    obtain ⟨relay, paras, hrelay, hparas⟩ := checkConfigSome_shapes rawConfig hc'
    have hrun : (run env rawConfig).1 ≠ RunOutcome.nullConfig
        ∧ ∀ c, (run env rawConfig).1 = RunOutcome.ok c →
            c = { rawConfig with
                  relaychain := some { relay with nodes := (generateNodeKeys env relay.nodes).1 },
                  parachains := some (resolveParachainId env paras).1,
                  simpleParachains :=
                    some (resolveSimpleParachainIds (rawConfig.simpleParachains.getD [])) } := by
      unfold run
      rw [if_neg hc, hrelay, hparas]
      dsimp only
      constructor
      · split
        · simp
        · split
          · simp
          · split
            · simp
            · split
              · simp
              · simp
      · intro c hok
        split at hok
        · simp at hok
        · split at hok
          · simp at hok
          · split at hok
            · simp at hok
            · split at hok
              · simp at hok
              · simp only [RunOutcome.ok.injEq] at hok
                exact hok.symm
    refine ⟨?_, ?_, ?_⟩
    · constructor
      · intro h
        exact absurd h hrun.1
      · intro h
        exact absurd h hc
    · intro h
      exact absurd h hc
    · intro c hok
      have hceq := hrun.2 c hok
      subst hceq
      refine ⟨?_, ?_, ?_⟩
      · intro ps hps p hp
        have hpe : (resolveParachainId env paras).1 = ps := by simpa using hps
        rw [← hpe] at hp
        exact resolveParachainId_isSome env paras p hp
      · intro ss hss sp hsp
        have hse : resolveSimpleParachainIds (rawConfig.simpleParachains.getD []) = ss := by
          simpa using hss
        rw [← hse] at hsp
        exact resolveSimpleParachainIds_isSome _ sp hsp
      · intro relay' hrelay' n hn
        have hre : ({ relay with nodes := (generateNodeKeys env relay.nodes).1 }
            : RelaychainCfg) = relay' := by simpa using hrelay'
        rw [← hre] at hn
        exact generateNodeKeysGo_isSome env relay.nodes 0 n hn

/-- Claim C9 witness: a config failing the check makes `run` return null with
an empty event trace. -/
theorem C9_run_null_iff_witness :
    checkConfig (some cfgBadW) = false ∧ (run envW cfgBadW).2 = [] :=
  ⟨by decide, (C9_run_null_iff envW cfgBadW).2.1 (by decide)⟩
